import Mathlib

/-!
Verification development for a local-first sports-tracker client.

The development shallowly embeds the logic of the repository:
* a JSON value model for the export/import pipeline (`exportImport.ts`),
  with the browser store (Dexie tables `activities` and `gpsPoints`)
  modelled as two lists plus the auto-increment sample key counter;
* the geolocation hook state machine (`useGeolocation.ts`);
* the pure geometry and metrics functions (`distance.ts`, `calories.ts`);
* the save reduction of `RecordActivity.tsx`.

JavaScript numbers are embedded as rationals where the code is exact
arithmetic, and as reals where the code uses transcendental functions
(the haversine formula).  `JSON.parse` is a platform primitive, so
the entry point of the importer takes `Option Json`: `none` models a
string that is not parseable JSON, `some v` a string parsing to `v`.
-/

set_option autoImplicit false

/-- JSON values (the post-`JSON.parse` world of the import pipeline).
Numbers are rationals, which is faithful for every value the claims
touch.  Objects are ordered key-value lists, mirroring the enumeration
order of JavaScript object properties. -/
inductive Json where
  | null
  | bool (b : Bool)
  | num (q : ℚ)
  | str (s : String)
  | arr (xs : List Json)
  | obj (fields : List (String × Json))

/-- Property lookup on an ordered field list (first binding wins, as in
a JavaScript object, where keys are unique anyway). -/
def lookupKey : List (String × Json) → String → Option Json
  | [], _ => none
  | (k', v) :: tl, k => if k' = k then some v else lookupKey tl k

/-- Property access `j.k`: `none` models the JavaScript `undefined`
that property access on a missing key or a non-object yields. -/
def Json.getField : Json → String → Option Json
  | .obj fs, k => lookupKey fs k
  | _, _ => none

/-- Replace the value of the first binding of `k`, or append a new
binding; this is the effect of `{...o, k: v}` on the key order of a
JavaScript object spread. -/
def setPairs : List (String × Json) → String → Json → List (String × Json)
  | [], k, v => [(k, v)]
  | (k', v') :: tl, k, v =>
      if k' = k then (k', v) :: tl else (k', v') :: setPairs tl k v

/-- Object update `{...j, k: v}` (also used for the Dexie write-back of
an auto-generated primary key into the stored object).  Spreading a
non-object contributes no own enumerable properties, so only the new
binding remains. -/
def Json.setField : Json → String → Json → Json
  | .obj fs, k, v => .obj (setPairs fs k v)
  | _, k, v => .obj [(k, v)]

/-- Destructuring removal `({k, ...rest}) => rest` of one key. -/
def Json.removeField : Json → String → Json
  | .obj fs, k => .obj (fs.filter (fun kv => kv.1 != k))
  | j, _ => j

/-- JavaScript test `value && typeof value === "string"` as used by
the bundle validation: only a nonempty string passes (the empty string
is falsy). -/
def jsTruthyString : Option Json → Bool
  | some (.str s) => !s.isEmpty
  | _ => false

/-- JavaScript test `value && typeof value === "object"`: objects and
arrays pass, `null` is falsy, every other primitive has a different
`typeof`. -/
def isObjTy : Json → Bool
  | .obj _ => true
  | .arr _ => true
  | _ => false

/-- Coerce `activities`-style fields to a list: `none` for anything but
an array literal. -/
def jsonArr : Option Json → List Json
  | some (.arr xs) => xs
  | _ => []

/-- Validation of an entry of the `activities` array of an imported
bundle (the loop body of `validateImportedData`). -/
def validActivityItem (item : Json) : Bool :=
  isObjTy item &&
  (match item.getField "activity" with
   | some a =>
       isObjTy a &&
       jsTruthyString (a.getField "id") &&
       jsTruthyString (a.getField "sport_type") &&
       jsTruthyString (a.getField "started_at") &&
       (match item.getField "gpsPoints" with
        | some (.arr _) => true
        | _ => false)
   | none => false)

/-- The structural validation `validateImportedData` of `exportImport.ts`:
a truthy `version` string, an `activities` array, and per item a truthy
`activity` object with truthy string `id`, `sport_type`, `started_at`
plus a `gpsPoints` array. -/
def validateImportedData (data : Json) : Bool :=
  isObjTy data &&
  jsTruthyString (data.getField "version") &&
  (match data.getField "activities" with
   | some (.arr items) => items.all validActivityItem
   | _ => false)

/-- Result record of `importActivities`. -/
structure ImportResult where
  success : Bool
  imported : ℕ
  skipped : ℕ
  errors : List String
deriving DecidableEq

/-- The persistent store: the Dexie tables `activities` (primary key =
the `id` property) and `gpsPoints` (auto-increment key `++id`), plus the
auto-increment counter.  Lists are kept in insertion order. -/
structure Store where
  activities : List Json
  gpsPoints : List Json
  nextGpsId : ℕ

def emptyStore : Store := ⟨[], [], 1⟩

/-- String primary key of a stored activity object (`activity.id`).
Stored activities always carry a nonempty string id. -/
def jsonId (a : Json) : String :=
  match a.getField "id" with
  | some (.str s) => s
  | _ => ""

/-- Test whether a stored sample references the given activity id
(`where("activity_id").equals(aid)`). -/
def matchesAid (p : Json) (aid : String) : Bool :=
  match p.getField "activity_id" with
  | some (.str s) => s == aid
  | _ => false

/-- Primary-key lookup `db.activities.get(aid)` reduced to existence. -/
def activityExists (σ : Store) (aid : String) : Bool :=
  σ.activities.any (fun a => jsonId a == aid)

/-- Index query `db.gpsPoints.where("activity_id").equals(aid).toArray()`;
for an equality query on the index the results come back in primary-key
order, which coincides with insertion order for the auto-increment key. -/
def pointsForActivity (σ : Store) (aid : String) : List Json :=
  σ.gpsPoints.filter (fun p => matchesAid p aid)

/-- The `activity` property of a bundle item. -/
def itemActivity (item : Json) : Json :=
  (item.getField "activity").getD Json.null

/-- The id `item.activity.id` of a bundle item. -/
def itemAid (item : Json) : String :=
  jsonId (itemActivity item)

/-- One iteration of the import loop of `importActivities`: skip when
the id already exists, otherwise add the activity and its samples (with
`activity_id` overwritten and fresh auto keys) in one transaction.  The
`bulkAdd` guard on a nonempty `gpsPoints` list is dropped because adding
an empty batch is a no-op; the per-item `catch` is unreachable in this
model because the modelled store operations cannot fail. -/
def importItem (acc : ImportResult × Store) (item : Json) : ImportResult × Store :=
  let r := acc.1
  let σ := acc.2
  let aid := itemAid item
  if activityExists σ aid then
    ({ r with skipped := r.skipped + 1 }, σ)
  else
    let pts := jsonArr (item.getField "gpsPoints")
    let ptsWithAid := pts.map (fun p => p.setField "activity_id" (Json.str aid))
    let σ' : Store :=
      { activities := σ.activities ++ [itemActivity item]
        gpsPoints := σ.gpsPoints ++
          (ptsWithAid.enum.map
            (fun ip => ip.2.setField "id" (Json.num ((σ.nextGpsId + ip.1 : ℕ) : ℚ))))
        nextGpsId := σ.nextGpsId + pts.length }
    ({ r with imported := r.imported + 1 }, σ')

/-- The import loop over the bundle items. -/
def importFold (items : List Json) (acc : ImportResult × Store) : ImportResult × Store :=
  items.foldl importItem acc

/-- The `importActivities` entry point of `exportImport.ts`.  The
`Option Json` argument stands for `JSON.parse(jsonData)`: `none` is a
parse failure (the `catch` branch), `some data` a successful parse. -/
def importActivities (parsed : Option Json) (σ : Store) : ImportResult × Store :=
  match parsed with
  | none =>
      ({ success := false, imported := 0, skipped := 0,
         errors := ["Invalid JSON format"] }, σ)
  | some data =>
      if validateImportedData data then
        let res := importFold (jsonArr (data.getField "activities"))
          ({ success := false, imported := 0, skipped := 0, errors := [] }, σ)
        ({ res.1 with
            success := res.1.errors.isEmpty || decide (0 < res.1.imported) }, res.2)
      else
        ({ success := false, imported := 0, skipped := 0,
           errors := ["Invalid data structure. Expected Sports Tracker export format."] }, σ)

/-- The loop body of `exportAllActivities`: one stored activity paired
with its samples, the auto key `id` destructured away from each sample. -/
def exportEntry (σ : Store) (a : Json) : Json :=
  Json.obj
    [("activity", a),
     ("gpsPoints", Json.arr
        ((pointsForActivity σ (jsonId a)).map
          (fun p => p.removeField "id")))]

/-- The `exportAllActivities` entry point.  The export timestamp
`new Date().toISOString()` is a parameter. -/
def exportAllActivities (now : String) (σ : Store) : Json :=
  Json.obj
    [("version", Json.str "1.0"),
     ("exportedAt", Json.str now),
     ("activities", Json.arr (σ.activities.map (exportEntry σ)))]

/-- Referential integrity of the sample table: every stored sample
references a stored activity through its `activity_id` property. -/
def SamplesReference (σ : Store) : Prop :=
  ∀ p ∈ σ.gpsPoints, ∃ a ∈ σ.activities, matchesAid p (jsonId a) = true

/-- Well-formedness of a store state, the data-model invariants of the
specification: every stored activity is an object carrying nonempty
string `id`, `sport_type` and `started_at` properties, primary keys are
unique, and the sample table is referentially intact. -/
def StoreWF (σ : Store) : Prop :=
  (∀ a ∈ σ.activities,
     jsTruthyString (a.getField "id") = true ∧
     jsTruthyString (a.getField "sport_type") = true ∧
     jsTruthyString (a.getField "started_at") = true ∧
     isObjTy a = true) ∧
  (σ.activities.map jsonId).Nodup ∧
  SamplesReference σ

/-! ### Geolocation hook (`useGeolocation.ts`) -/

/-- One device fix as assembled by `handlePosition` from a
`GeolocationPosition`. -/
structure GpsPosition where
  latitude : ℚ
  longitude : ℚ
  elevation_meters : Option ℚ
  accuracy_meters : Option ℚ
  speed_mps : Option ℚ
  timestamp : String
deriving DecidableEq

/-- The mutable state of the `useGeolocation` hook (`positions` mirrors
`positionsRef.current`). -/
structure GeoState where
  currentPosition : Option GpsPosition
  positions : List GpsPosition
  isTracking : Bool
  isPaused : Bool
  error : Option String

def geoInit : GeoState :=
  { currentPosition := none, positions := [], isTracking := false,
    isPaused := false, error := none }

/-- The fix handler body: the current-position snapshot is updated
unconditionally, the fix is appended to the accumulated sequence only
when the isPaused value the handler closed over is false, and any
surfaced error is cleared.  The useCallback closure reads the isPaused
of the render it was created in, not the live flag, so the captured
value is an explicit argument here. -/
def geoHandlePosition (isPausedCaptured : Bool) (p : GpsPosition) (st : GeoState) : GeoState :=
  { st with
      currentPosition := some p
      positions := if isPausedCaptured then st.positions else st.positions ++ [p]
      error := none }

/-- `start()`: reset the accumulated sequence and begin observation
(the one-shot request and the watch deliver fixes through
`geoHandlePosition`, modelled as separate events). -/
def geoStart (st : GeoState) : GeoState :=
  { st with error := none, isTracking := true, isPaused := false, positions := [] }

/-- `pause()`: a logical gate only, the watch stays subscribed. -/
def geoPause (st : GeoState) : GeoState :=
  { st with isPaused := true }

/-- `resume()`: reopen the gate. -/
def geoResume (st : GeoState) : GeoState :=
  { st with isPaused := false }

/-- `stop()`: clear the watch and return the accumulated sequence. -/
def geoStop (st : GeoState) : List GpsPosition × GeoState :=
  (st.positions, { st with isTracking := false, isPaused := false })

/-- Events driving the hook: the UI transitions plus delivered fixes. -/
inductive GeoEvent where
  | evStart
  | evPause
  | evResume
  | fix (p : GpsPosition)

/-- One delivered event.  A fix is delivered to the handler instance
that start() registered with getCurrentPosition and watchPosition;
start is reachable only while not paused, and pause() only flips the
state flag without re-registering the watch, so that closure captured
isPaused = false once and for all (the React stale-closure behavior of
the source): a delivered fix always runs with the captured value
false. -/
def geoStep (st : GeoState) : GeoEvent → GeoState
  | .evStart => geoStart st
  | .evPause => geoPause st
  | .evResume => geoResume st
  | .fix p => geoHandlePosition false p st

def runGeo (st : GeoState) (evs : List GeoEvent) : GeoState :=
  evs.foldl geoStep st

/-! ### Geometry (`distance.ts`) -/

open Real in
/-- Two-argument arctangent with the `Math.atan2` branch conventions on
real (non-exceptional) inputs. -/
noncomputable def atan2 (y x : ℝ) : ℝ :=
  if 0 < x then arctan (y / x)
  else if x < 0 then
    (if 0 ≤ y then arctan (y / x) + π else arctan (y / x) - π)
  else
    (if 0 < y then π / 2 else if y < 0 then -(π / 2) else 0)

open Real in
/-- `calculateDistance`: the haversine great-circle distance in meters,
embedded over the reals. -/
noncomputable def calculateDistance (lat1 lon1 lat2 lon2 : ℝ) : ℝ :=
  let R : ℝ := 6371000
  let phi1 := lat1 * π / 180
  let phi2 := lat2 * π / 180
  let dPhi := (lat2 - lat1) * π / 180
  let dLam := (lon2 - lon1) * π / 180
  let a := sin (dPhi / 2) * sin (dPhi / 2) +
    cos phi1 * cos phi2 * (sin (dLam / 2) * sin (dLam / 2))
  let c := 2 * atan2 (Real.sqrt a) (Real.sqrt (1 - a))
  R * c

/-- `calculateTotalDistance`: the sum of consecutive pairwise haversine
distances (0 for fewer than two points); embedded as a fold over
consecutive pairs of the coordinate list. -/
noncomputable def sumConsecutive : List (ℚ × ℚ) → ℝ
  | [] => 0
  | [_] => 0
  | a :: b :: tl =>
      calculateDistance (a.1 : ℝ) (a.2 : ℝ) (b.1 : ℝ) (b.2 : ℝ) +
        sumConsecutive (b :: tl)

noncomputable def calculateTotalDistance (points : List GpsPosition) : ℝ :=
  sumConsecutive (points.map (fun p => (p.latitude, p.longitude)))

/-- The accumulator loop of `calculateElevation`: `prev` is the last
non-null reading, `gain` and `loss` the running sums. -/
def elevLoop (prev : ℚ) (rest : List ℚ) (gain loss : ℚ) : ℚ × ℚ :=
  match rest with
  | [] => (gain, loss)
  | e :: tl =>
      let d := e - prev
      if 0 < d then elevLoop e tl (gain + d) loss
      else elevLoop e tl gain (loss + |d|)

/-- `calculateElevation`: null readings are dropped, then positive
consecutive differences are summed as gain and the absolute values of
the nonpositive ones as loss; fewer than two non-null readings give
`(0, 0)`. -/
def calculateElevation (points : List GpsPosition) : ℚ × ℚ :=
  let elevations := points.filterMap (fun p => p.elevation_meters)
  if elevations.length < 2 then (0, 0)
  else
    match elevations with
    | [] => (0, 0)
    | x :: tl => elevLoop x tl 0 0

/-! ### Calories (`calories.ts`), generic over an ordered field so the
same definition serves the exact rational world and the real-valued
save reduction. -/

section Calories

variable {K : Type} [LinearOrderedField K] [FloorRing K]

/-- `Math.round`: round half toward positive infinity. -/
def jsRound (x : K) : ℤ := ⌊x + 1 / 2⌋

/-- The `MET_VALUES` table as key lookup; the final branch is both the
`other` entry (5.0) and the `|| MET_VALUES.other` fallback for a key
outside the table (every table value is nonzero, so JavaScript
truthiness coincides with presence). -/
def metFor (s : String) : K :=
  if s = "running" then 9.8
  else if s = "cycling" then 7.5
  else if s = "walking" then 3.5
  else if s = "hiking" then 6.0
  else if s = "swimming" then 6.0
  else 5.0

/-- `estimateCalories`: MET x weight x duration in hours, rounded.  The
TypeScript default weight is 70 kg, passed explicitly here. -/
def estimateCalories (sportType : String) (durationSeconds weightKg : K) : ℤ :=
  jsRound (metFor sportType * weightKg * (durationSeconds / 3600))

/-- `estimateCaloriesWithDistance`: the distance heuristic for running
and walking, the MET estimate otherwise. -/
def estimateCaloriesWithDistance
    (sportType : String) (distanceMeters durationSeconds weightKg : K) : ℤ :=
  if sportType = "running" ∨ sportType = "walking" then
    jsRound (weightKg * (distanceMeters / 1000) *
      (if sportType = "running" then 1.0 else 0.5))
  else
    estimateCalories sportType durationSeconds weightKg

end Calories

/-! ### Save reduction (`RecordActivity.tsx`, `handleSave`) -/

/-- The `Activity` record of `database.ts`.  `sport_type` is kept as a
string (its runtime representation); numeric summary fields computed by
transcendental functions are real, the rest rational. -/
structure Activity where
  id : String
  title : String
  sport_type : String
  started_at : String
  ended_at : String
  distance_meters : ℝ
  duration_seconds : ℕ
  calories : Option ℤ
  notes : Option String
  elevation_gain : Option ℚ
  elevation_loss : Option ℚ
  avg_speed_mps : Option ℝ
  max_speed_mps : Option ℚ

/-- The label lookup `SPORT_TYPES.find(s => s.value === sportType)?.label
|| "Activity"` used for the default title. -/
def sportLabel (s : String) : String :=
  if s = "running" then "Running"
  else if s = "cycling" then "Cycling"
  else if s = "walking" then "Walking"
  else if s = "hiking" then "Hiking"
  else if s = "swimming" then "Swimming"
  else if s = "other" then "Other"
  else "Activity"

/-- `Math.max(...list)` over a nonempty spread (the empty case is
unreachable behind the `positions.length > 0` guard). -/
def jsMax (l : List ℚ) : ℚ :=
  match l with
  | [] => 0
  | x :: xs => xs.foldl max x

/-- The stopped-snapshot reduction of `handleSave`: the activity record
built from the captured positions and elapsed seconds.  `activityId`
stands for `crypto.randomUUID()` and `now` for
`new Date().toISOString()`.  In `p.speed_mps || 0` the JavaScript
falsy values among possible speeds are `null` and `0`, both of which
`Option.getD 0` sends to `0`. -/
noncomputable def buildActivity (activityId sportType title notes now : String)
    (positions : List GpsPosition) (duration : ℕ) : Activity :=
  let totalDistance := calculateTotalDistance positions
  let elevation := calculateElevation positions
  { id := activityId
    title := if title.isEmpty then sportLabel sportType else title
    sport_type := sportType
    started_at := match positions with
      | [] => now
      | p :: _ => p.timestamp
    ended_at := match positions.getLast? with
      | none => now
      | some p => p.timestamp
    distance_meters := totalDistance
    duration_seconds := duration
    calories := some (estimateCaloriesWithDistance sportType totalDistance
      (duration : ℝ) 70)
    notes := if notes.isEmpty then none else some notes
    elevation_gain := some elevation.1
    elevation_loss := some elevation.2
    avg_speed_mps := if 0 < duration then some (totalDistance / (duration : ℝ)) else none
    max_speed_mps := if 0 < positions.length then
        some (jsMax (positions.map (fun p => p.speed_mps.getD 0)))
      else none }

/-! ### Claim-side validation predicate and concrete fixtures -/

/-- Modelled from the claim wording for the per-item validation: a
truthy `activity` object whose `id`, `sport_type` and `started_at` are
truthy strings, plus a `gpsPoints` array.  Written from the claim text,
to be compared with `validActivityItem` from the source. -/
def claimValidItem (item : Json) : Bool :=
  (match item.getField "activity" with
   | some a =>
       isObjTy a &&
       jsTruthyString (a.getField "id") &&
       jsTruthyString (a.getField "sport_type") &&
       jsTruthyString (a.getField "started_at")
   | none => false) &&
  (match item.getField "gpsPoints" with
   | some (.arr _) => true
   | _ => false)

/-- Modelled from the claim wording for the whole-document validation:
a truthy string `version` field (any value), an `activities` array, and
every item satisfying `claimValidItem`.  Written from the claim text,
to be compared with `validateImportedData` from the source. -/
def claimValidStructure (data : Json) : Bool :=
  jsTruthyString (data.getField "version") &&
  (match data.getField "activities" with
   | some (.arr items) => items.all claimValidItem
   | _ => false)

/-- Concrete fixture: a stored activity object. -/
def demoActivity : Json :=
  Json.obj
    [("id", Json.str "a1"), ("title", Json.str "Morning Run"),
     ("sport_type", Json.str "running"),
     ("started_at", Json.str "2024-05-01T06:00:00Z")]

/-- Concrete fixture: a stored sample with its auto key. -/
def demoPoint : Json :=
  Json.obj
    [("id", Json.num 1), ("activity_id", Json.str "a1"),
     ("latitude", Json.num 1), ("longitude", Json.num 2),
     ("elevation_meters", Json.null),
     ("timestamp", Json.str "2024-05-01T06:00:01Z"),
     ("speed_mps", Json.null), ("accuracy_meters", Json.null)]

/-- Concrete fixture: a one-activity store. -/
def demoStore : Store := ⟨[demoActivity], [demoPoint], 2⟩

/-- Concrete fixture: a valid one-activity bundle. -/
def demoBundle : Json :=
  Json.obj
    [("version", Json.str "1.0"),
     ("exportedAt", Json.str "2024-05-02T00:00:00Z"),
     ("activities", Json.arr
        [Json.obj
          [("activity", demoActivity),
           ("gpsPoints", Json.arr
              [Json.obj
                [("activity_id", Json.str "a1"),
                 ("latitude", Json.num 1), ("longitude", Json.num 2),
                 ("timestamp", Json.str "2024-05-01T06:00:01Z")]])]])]

/-- Concrete fixture: a bundle whose sample carries a wrong
`activity_id`. -/
def strayAidBundle : Json :=
  Json.obj
    [("version", Json.str "1.0"),
     ("activities", Json.arr
        [Json.obj
          [("activity", Json.obj
              [("id", Json.str "b1"), ("sport_type", Json.str "cycling"),
               ("started_at", Json.str "2024-06-01T06:00:00Z")]),
           ("gpsPoints", Json.arr
              [Json.obj
                [("activity_id", Json.str "totally-wrong"),
                 ("latitude", Json.num 3), ("longitude", Json.num 4),
                 ("timestamp", Json.str "2024-06-01T06:00:01Z")]])]])]

/-- Concrete fixture: version "2.0", unknown sport string, no numeric
fields at all. -/
def weirdSportBundle : Json :=
  Json.obj
    [("version", Json.str "2.0"),
     ("activities", Json.arr
        [Json.obj
          [("activity", Json.obj
              [("id", Json.str "w1"), ("sport_type", Json.str "zumba"),
               ("started_at", Json.str "2024-01-01")]),
           ("gpsPoints", Json.arr [])]])]

/-- Concrete fixture: an empty-string id, rejected as falsy. -/
def emptyIdBundle : Json :=
  Json.obj
    [("version", Json.str "1.0"),
     ("activities", Json.arr
        [Json.obj
          [("activity", Json.obj
              [("id", Json.str ""), ("sport_type", Json.str "running"),
               ("started_at", Json.str "2024-01-01")]),
           ("gpsPoints", Json.arr [])]])]

/-! ### Field-operation lemmas -/

@[simp] theorem getField_obj (fs : List (String × Json)) (k : String) :
    (Json.obj fs).getField k = lookupKey fs k := rfl

theorem lookupKey_setPairs_self (fs : List (String × Json)) (k : String) (v : Json) :
    lookupKey (setPairs fs k v) k = some v := by
  induction fs with
  | nil => simp [setPairs, lookupKey]
  | cons hd tl ih =>
      by_cases h : hd.1 = k
      · simp [setPairs, lookupKey, h]
      · simpa [setPairs, lookupKey, h] using ih

theorem lookupKey_setPairs_ne (fs : List (String × Json)) (k k' : String) (v : Json)
    (h : k' ≠ k) : lookupKey (setPairs fs k v) k' = lookupKey fs k' := by
  induction fs with
  | nil => simp [setPairs, lookupKey, Ne.symm h]
  | cons hd tl ih =>
      obtain ⟨k1, v1⟩ := hd
      by_cases hk : k1 = k
      · subst hk
        simp [setPairs, lookupKey, Ne.symm h]
      · simp [setPairs, lookupKey, hk, ih]

theorem setPairs_eq_self (fs : List (String × Json)) (k : String) (v : Json)
    (h : lookupKey fs k = some v) : setPairs fs k v = fs := by
  induction fs with
  | nil => simp [lookupKey] at h
  | cons hd tl ih =>
      by_cases hk : hd.1 = k
      · obtain ⟨k1, v1⟩ := hd
        simp only at hk
        subst hk
        simp [lookupKey] at h
        simp [setPairs, h]
      · simp [lookupKey, hk] at h
        simp [setPairs, hk, ih h]

theorem filter_setPairs (fs : List (String × Json)) (k : String) (v : Json) :
    (setPairs fs k v).filter (fun kv => kv.1 != k) =
      fs.filter (fun kv => kv.1 != k) := by
  induction fs with
  | nil => simp [setPairs]
  | cons hd tl ih =>
      by_cases hk : hd.1 = k
      · simp [setPairs, hk]
      · simp [setPairs, hk, ih]

theorem filter_eq_self_of_lookupKey_none (fs : List (String × Json)) (k : String)
    (h : lookupKey fs k = none) : fs.filter (fun kv => kv.1 != k) = fs := by
  induction fs with
  | nil => simp
  | cons hd tl ih =>
      by_cases hk : hd.1 = k
      · simp [lookupKey, hk] at h
      · simp [lookupKey, hk] at h
        simp [hk, ih h]

theorem getField_setField_self (j : Json) (k : String) (v : Json) :
    (j.setField k v).getField k = some v := by
  cases j <;> simp [Json.setField, lookupKey, lookupKey_setPairs_self]

theorem getField_setField_ne (j : Json) (k k' : String) (v : Json) (h : k' ≠ k) :
    (j.setField k v).getField k' = j.getField k' := by
  cases j <;> simp [Json.setField, Json.getField, lookupKey, Ne.symm h,
    lookupKey_setPairs_ne _ _ _ _ h]

theorem setField_eq_self (j : Json) (k : String) (v : Json)
    (h : j.getField k = some v) : j.setField k v = j := by
  cases j <;> simp [Json.getField] at h
  simp [Json.setField, setPairs_eq_self _ _ _ h]

theorem removeField_setField_obj (fs : List (String × Json)) (k : String) (v : Json) :
    ((Json.obj fs).setField k v).removeField k = (Json.obj fs).removeField k := by
  simp [Json.setField, Json.removeField, filter_setPairs]

theorem removeField_eq_self_of_getField_none (fs : List (String × Json)) (k : String)
    (h : (Json.obj fs).getField k = none) :
    (Json.obj fs).removeField k = Json.obj fs := by
  simp [Json.getField] at h
  simp [Json.removeField, filter_eq_self_of_lookupKey_none _ _ h]

theorem getField_removeField_self (j : Json) (k : String) :
    (j.removeField k).getField k = none := by
  cases j with
  | obj fs =>
      simp only [Json.removeField, getField_obj]
      induction fs with
      | nil => simp [lookupKey]
      | cons hd tl ih =>
          by_cases hk : hd.1 = k
          · simpa [hk] using ih
          · simpa [lookupKey, hk] using ih
  | null => rfl
  | bool b => rfl
  | num q => rfl
  | str s => rfl
  | arr xs => rfl

theorem getField_removeField_ne (j : Json) (k k' : String) (h : k' ≠ k) :
    (j.removeField k).getField k' = j.getField k' := by
  cases j with
  | obj fs =>
      simp only [Json.removeField, getField_obj]
      induction fs with
      | nil => simp
      | cons hd tl ih =>
          obtain ⟨k1, v1⟩ := hd
          by_cases hk : k1 = k
          · subst hk
            simp [List.filter_cons, lookupKey, Ne.symm h, ih]
          · simp [List.filter_cons, lookupKey, hk, ih]
  | null => rfl
  | bool b => rfl
  | num q => rfl
  | str s => rfl
  | arr xs => rfl

theorem matchesAid_setField_aid (p : Json) (aid : String) :
    matchesAid (p.setField "activity_id" (Json.str aid)) aid = true := by
  simp [matchesAid, getField_setField_self]

theorem matchesAid_setField_other (p : Json) (k : String) (v : Json) (aid : String)
    (h : k ≠ "activity_id") :
    matchesAid (p.setField k v) aid = matchesAid p aid := by
  simp [matchesAid, getField_setField_ne _ _ _ _ (Ne.symm h)]

theorem matchesAid_removeField (p : Json) (k : String) (aid : String)
    (h : k ≠ "activity_id") :
    matchesAid (p.removeField k) aid = matchesAid p aid := by
  simp [matchesAid, getField_removeField_ne _ _ _ (Ne.symm h)]

/-! ### Import loop lemmas -/

theorem importFold_nil (acc : ImportResult × Store) : importFold [] acc = acc := rfl

theorem importFold_cons (item : Json) (items : List Json) (acc : ImportResult × Store) :
    importFold (item :: items) acc = importFold items (importItem acc item) := rfl

theorem importItem_skip (acc : ImportResult × Store) (item : Json)
    (h : activityExists acc.2 (itemAid item) = true) :
    importItem acc item = ({ acc.1 with skipped := acc.1.skipped + 1 }, acc.2) := by
  simp [importItem, h]

theorem importItem_errors (acc : ImportResult × Store) (item : Json) :
    (importItem acc item).1.errors = acc.1.errors := by
  by_cases h : activityExists acc.2 (itemAid item) = true <;> simp [importItem, h]

theorem importItem_success (acc : ImportResult × Store) (item : Json) :
    (importItem acc item).1.success = acc.1.success := by
  by_cases h : activityExists acc.2 (itemAid item) = true <;> simp [importItem, h]

theorem importItem_counts (acc : ImportResult × Store) (item : Json) :
    (importItem acc item).1.imported + (importItem acc item).1.skipped =
      acc.1.imported + acc.1.skipped + 1 := by
  by_cases h : activityExists acc.2 (itemAid item) = true <;>
    simp [importItem, h] <;> omega

theorem importItem_activities (acc : ImportResult × Store) (item : Json) :
    ∃ ext, (importItem acc item).2.activities = acc.2.activities ++ ext := by
  by_cases h : activityExists acc.2 (itemAid item) = true
  · exact ⟨[], by simp [importItem, h]⟩
  · exact ⟨[itemActivity item], by simp [importItem, h]⟩

theorem importItem_exists_self (acc : ImportResult × Store) (item : Json) :
    activityExists (importItem acc item).2 (itemAid item) = true := by
  by_cases h : activityExists acc.2 (itemAid item) = true
  · rw [importItem_skip acc item h]
    exact h
  · simp only [importItem]
    rw [if_neg h]
    refine List.any_eq_true.mpr ⟨itemActivity item, ?_, ?_⟩
    · simp
    · simp [itemAid]

theorem activityExists_mono (σ σ' : Store) (aid : String)
    (hext : ∃ ext, σ'.activities = σ.activities ++ ext)
    (h : activityExists σ aid = true) : activityExists σ' aid = true := by
  obtain ⟨ext, he⟩ := hext
  unfold activityExists at h ⊢
  rw [he, List.any_append, h]
  rfl

theorem importFold_errors (items : List Json) (acc : ImportResult × Store) :
    (importFold items acc).1.errors = acc.1.errors := by
  induction items generalizing acc with
  | nil => rfl
  | cons item items ih =>
      rw [importFold_cons, ih, importItem_errors]

theorem importFold_counts (items : List Json) (acc : ImportResult × Store) :
    (importFold items acc).1.imported + (importFold items acc).1.skipped =
      acc.1.imported + acc.1.skipped + items.length := by
  induction items generalizing acc with
  | nil => rfl
  | cons item items ih =>
      rw [importFold_cons]
      rw [ih, importItem_counts]
      simp [Nat.add_assoc, Nat.add_comm 1]

theorem importFold_activities (items : List Json) (acc : ImportResult × Store) :
    ∃ ext, (importFold items acc).2.activities = acc.2.activities ++ ext := by
  induction items generalizing acc with
  | nil => exact ⟨[], by simp [importFold]⟩
  | cons item items ih =>
      obtain ⟨e1, h1⟩ := importItem_activities acc item
      obtain ⟨e2, h2⟩ := ih (importItem acc item)
      exact ⟨e1 ++ e2, by rw [importFold_cons, h2, h1, List.append_assoc]⟩

theorem importFold_mem_exists (items : List Json) (acc : ImportResult × Store) :
    ∀ item ∈ items, activityExists (importFold items acc).2 (itemAid item) = true := by
  induction items generalizing acc with
  | nil => intro item h; simp at h
  | cons hd items ih =>
      intro item hmem
      rcases List.mem_cons.mp hmem with rfl | hin
      · rw [importFold_cons]
        refine activityExists_mono (importItem acc item).2 _ _
          (importFold_activities items _) ?_
        exact importItem_exists_self acc item
      · rw [importFold_cons]
        exact ih (importItem acc hd) item hin

theorem importFold_skip_all (items : List Json) (acc : ImportResult × Store)
    (h : ∀ item ∈ items, activityExists acc.2 (itemAid item) = true) :
    importFold items acc =
      ({ acc.1 with skipped := acc.1.skipped + items.length }, acc.2) := by
  induction items generalizing acc with
  | nil => simp [importFold]
  | cons item items ih =>
      rw [importFold_cons, importItem_skip acc item (h item (List.mem_cons_self _ _)),
        ih ({ acc.1 with skipped := acc.1.skipped + 1 }, acc.2)
          (fun x hx => h x (List.mem_cons_of_mem _ hx))]
      obtain ⟨⟨su, im, sk, er⟩, σ⟩ := acc
      simp only [Prod.mk.injEq, ImportResult.mk.injEq, List.length_cons, true_and, and_true]
      omega

theorem importActivities_valid (data : Json) (σ : Store)
    (h : validateImportedData data = true) :
    importActivities (some data) σ =
      (let res := importFold (jsonArr (data.getField "activities"))
        ({ success := false, imported := 0, skipped := 0, errors := [] }, σ)
       ({ res.1 with
            success := res.1.errors.isEmpty || decide (0 < res.1.imported) }, res.2)) := by
  simp [importActivities, h]

theorem validate_items (data : Json) (h : validateImportedData data = true) :
    ∀ item ∈ jsonArr (data.getField "activities"), validActivityItem item = true := by
  intro item hitem
  unfold validateImportedData at h
  rw [Bool.and_eq_true, Bool.and_eq_true] at h
  obtain ⟨⟨hobj, hver⟩, hrest⟩ := h
  rcases hm : data.getField "activities" with _ | j <;> rw [hm] at hrest
  · simp at hrest
  · cases j with
    | arr xs =>
        rw [hm] at hitem
        exact List.all_eq_true.mp hrest item hitem
    | null => simp at hrest
    | bool b => simp at hrest
    | num q => simp at hrest
    | str s => simp at hrest
    | obj fs => simp at hrest

/-! ### Export bundle lemmas -/

theorem itemActivity_exportEntry (σ : Store) (a : Json) :
    itemActivity (exportEntry σ a) = a := by
  simp [itemActivity, exportEntry, Json.getField, lookupKey]

theorem itemAid_exportEntry (σ : Store) (a : Json) :
    itemAid (exportEntry σ a) = jsonId a := by
  simp [itemAid, itemActivity_exportEntry]

theorem gpsPoints_exportEntry (σ : Store) (a : Json) :
    jsonArr ((exportEntry σ a).getField "gpsPoints")
      = (pointsForActivity σ (jsonId a)).map (fun p => p.removeField "id") := by
  simp [exportEntry, Json.getField, lookupKey, jsonArr]

theorem activities_exportAll (now : String) (σ : Store) :
    jsonArr ((exportAllActivities now σ).getField "activities")
      = σ.activities.map (exportEntry σ) := by
  simp [exportAllActivities, Json.getField, lookupKey, jsonArr]

@[simp] theorem isObjTy_obj (fs : List (String × Json)) :
    isObjTy (Json.obj fs) = true := rfl

@[simp] theorem isObjTy_arr (xs : List Json) :
    isObjTy (Json.arr xs) = true := rfl

theorem validActivityItem_exportEntry (σ : Store) (a : Json)
    (h1 : jsTruthyString (a.getField "id") = true)
    (h2 : jsTruthyString (a.getField "sport_type") = true)
    (h3 : jsTruthyString (a.getField "started_at") = true)
    (h4 : isObjTy a = true) :
    validActivityItem (exportEntry σ a) = true := by
  simp [validActivityItem, exportEntry, lookupKey, h1, h2, h3, h4]

theorem validate_exportAll (now : String) (σ : Store)
    (h : ∀ a ∈ σ.activities,
      jsTruthyString (a.getField "id") = true ∧
      jsTruthyString (a.getField "sport_type") = true ∧
      jsTruthyString (a.getField "started_at") = true ∧
      isObjTy a = true) :
    validateImportedData (exportAllActivities now σ) = true := by
  unfold validateImportedData
  rw [Bool.and_eq_true, Bool.and_eq_true]
  refine ⟨⟨rfl, ?_⟩, ?_⟩
  · rfl
  · have harr : (exportAllActivities now σ).getField "activities"
        = some (Json.arr (σ.activities.map (exportEntry σ))) := by
      simp [exportAllActivities, Json.getField, lookupKey]
    rw [harr]
    refine List.all_eq_true.mpr ?_
    intro item hitem
    obtain ⟨a, ha, rfl⟩ := List.mem_map.mp hitem
    obtain ⟨h1, h2, h3, h4⟩ := h a ha
    exact validActivityItem_exportEntry σ a h1 h2 h3 h4

/-! ### Point transform lemmas -/

theorem matchesAid_getField (p : Json) (aid : String) (h : matchesAid p aid = true) :
    p.getField "activity_id" = some (Json.str aid) := by
  unfold matchesAid at h
  rcases hm : p.getField "activity_id" with _ | v <;> rw [hm] at h
  · simp at h
  · cases v <;> simp at h
    subst h
    rfl

theorem setField_obj (j : Json) (k : String) (v : Json) :
    ∃ fs, j.setField k v = Json.obj fs := by
  cases j <;> exact ⟨_, rfl⟩

theorem removeField_setField_of_setField (x : Json) (k k' : String) (w v : Json) :
    (((x.setField k w).setField k' v).removeField k')
      = (x.setField k w).removeField k' := by
  obtain ⟨fs, hfs⟩ := setField_obj x k w
  rw [hfs, removeField_setField_obj]

/-- Stripping the auto key undoes the import-side transform of an
exported sample: re-setting `activity_id` to the value it already has
is the identity, and the fresh `id` is removed again. -/
theorem strip_transform (p : Json) (aid : String) (v : Json)
    (h : matchesAid p aid = true) :
    ((((p.removeField "id").setField "activity_id" (Json.str aid)).setField "id" v).removeField "id")
      = p.removeField "id" := by
  have hobj : ∃ fs, p = Json.obj fs := by
    rcases p with _ | b | q | s | xs | fs
    · simp [matchesAid, Json.getField] at h
    · simp [matchesAid, Json.getField] at h
    · simp [matchesAid, Json.getField] at h
    · simp [matchesAid, Json.getField] at h
    · simp [matchesAid, Json.getField] at h
    · exact ⟨fs, rfl⟩
  obtain ⟨fs, rfl⟩ := hobj
  have hset : (((Json.obj fs).removeField "id").setField "activity_id" (Json.str aid))
      = (Json.obj fs).removeField "id" := by
    refine setField_eq_self _ _ _ ?_
    rw [getField_removeField_ne _ _ _ (by decide)]
    exact matchesAid_getField _ _ h
  rw [hset]
  have : ∃ gs, (Json.obj fs).removeField "id" = Json.obj gs := ⟨_, rfl⟩
  obtain ⟨gs, hgs⟩ := this
  rw [hgs, removeField_setField_obj]
  refine removeField_eq_self_of_getField_none gs "id" ?_
  rw [← hgs]
  exact getField_removeField_self _ _

/-- After the import transform a sample matches exactly the id it was
stamped with. -/
theorem matchesAid_transform (q : Json) (aid aid' : String) (v : Json) :
    matchesAid ((q.setField "activity_id" (Json.str aid)).setField "id" v) aid'
      = (aid == aid') := by
  rw [matchesAid_setField_other _ _ _ _ (by decide)]
  simp [matchesAid, getField_setField_self]

/-! ### Import-of-export characterization -/

theorem importItem_exportEntry (s : Store) (σ : Store) (r : ImportResult) (a : Json)
    (hfresh : activityExists σ (jsonId a) = false) :
    importItem (r, σ) (exportEntry s a) =
      ({ r with imported := r.imported + 1 },
       { activities := σ.activities ++ [a]
         gpsPoints := σ.gpsPoints ++
           ((List.enumFrom 0 (((pointsForActivity s (jsonId a)).map
                 (fun p => p.removeField "id")).map
               (fun p => p.setField "activity_id" (Json.str (jsonId a))))).map
             (fun ip => ip.2.setField "id" (Json.num ((σ.nextGpsId + ip.1 : ℕ) : ℚ))))
         nextGpsId := σ.nextGpsId +
           ((pointsForActivity s (jsonId a)).map (fun p => p.removeField "id")).length }) := by
  unfold importItem
  simp only [itemAid_exportEntry, itemActivity_exportEntry, gpsPoints_exportEntry, hfresh,
    Bool.false_eq_true, if_false, List.enum]

theorem strip_stored (orig : List Json) (aid : String) (n0 : ℕ) :
    ∀ n : ℕ, (∀ p ∈ orig, matchesAid p aid = true) →
    ((List.enumFrom n ((orig.map (fun p => p.removeField "id")).map
          (fun p => p.setField "activity_id" (Json.str aid)))).map
        (fun ip => ip.2.setField "id" (Json.num ((n0 + ip.1 : ℕ) : ℚ)))).map
        (fun q => q.removeField "id")
      = orig.map (fun p => p.removeField "id") := by
  induction orig with
  | nil => intro n h; rfl
  | cons p ps ih =>
      intro n h
      simp only [List.map_cons, List.enumFrom, List.map]
      rw [strip_transform p aid _ (h p (List.mem_cons_self _ _)),
        ih (n + 1) (fun q hq => h q (List.mem_cons_of_mem _ hq))]

theorem filter_block (l : List Json) (aid aid' : String) (n0 : ℕ) :
    ∀ n : ℕ,
    ((List.enumFrom n (l.map (fun p => p.setField "activity_id" (Json.str aid)))).map
        (fun ip => ip.2.setField "id" (Json.num ((n0 + ip.1 : ℕ) : ℚ)))).filter
        (fun q => matchesAid q aid')
      = (if aid == aid'
         then (List.enumFrom n (l.map (fun p => p.setField "activity_id" (Json.str aid)))).map
            (fun ip => ip.2.setField "id" (Json.num ((n0 + ip.1 : ℕ) : ℚ)))
         else []) := by
  induction l with
  | nil => intro n; cases hb : (aid == aid') <;> simp [List.enumFrom]
  | cons p ps ih =>
      intro n
      simp only [List.map_cons, List.enumFrom, List.map, List.filter_cons,
        matchesAid_transform, ih (n + 1)]
      cases hb : (aid == aid') <;> simp

theorem filter_id_eq_singleton (acts : List Json) (a : Json) (ha : a ∈ acts)
    (hnodup : (acts.map jsonId).Nodup) :
    acts.filter (fun b => jsonId b == jsonId a) = [a] := by
  induction acts with
  | nil => simp at ha
  | cons x acts ih =>
      rw [List.map_cons, List.nodup_cons] at hnodup
      obtain ⟨hx, hnd⟩ := hnodup
      rcases List.mem_cons.mp ha with rfl | hmem
      · rw [List.filter_cons_of_pos (by simp)]
        have : acts.filter (fun b => jsonId b == jsonId a) = [] := by
          refine List.filter_eq_nil_iff.mpr ?_
          intro b hb
          simp only [beq_iff_eq]
          intro he
          exact hx (he ▸ List.mem_map_of_mem jsonId hb)
        rw [this]
      · have hne : jsonId x ≠ jsonId a := fun he =>
          hx (he ▸ List.mem_map_of_mem jsonId hmem)
        rw [List.filter_cons_of_neg (by simp [hne])]
        exact ih hmem hnd

theorem importFold_export (s : Store) (acts : List Json) :
    ∀ (r : ImportResult) (σ : Store),
    (acts.map jsonId).Nodup →
    (∀ a ∈ acts, activityExists σ (jsonId a) = false) →
    (importFold (acts.map (exportEntry s)) (r, σ)).2.activities = σ.activities ++ acts ∧
    ∀ aid', (pointsForActivity (importFold (acts.map (exportEntry s)) (r, σ)).2 aid').map
        (fun p => p.removeField "id")
      = (pointsForActivity σ aid').map (fun p => p.removeField "id")
        ++ (acts.filter (fun b => jsonId b == aid')).flatMap
            (fun a => (pointsForActivity s (jsonId a)).map (fun p => p.removeField "id")) := by
  induction acts with
  | nil => intro r σ _ _; simp [importFold]
  | cons a acts ih =>
      intro r σ hnodup hfresh
      have hfa : activityExists σ (jsonId a) = false := hfresh a (List.mem_cons_self _ _)
      rw [List.map_cons] at hnodup
      obtain ⟨hxa, hnd⟩ := List.nodup_cons.mp hnodup
      rw [List.map_cons, importFold_cons, importItem_exportEntry s σ r a hfa]
      have hfresh' : ∀ b ∈ acts,
          activityExists
            ({ activities := σ.activities ++ [a]
               gpsPoints := σ.gpsPoints ++
                 ((List.enumFrom 0 (((pointsForActivity s (jsonId a)).map
                       (fun p => p.removeField "id")).map
                     (fun p => p.setField "activity_id" (Json.str (jsonId a))))).map
                   (fun ip => ip.2.setField "id" (Json.num ((σ.nextGpsId + ip.1 : ℕ) : ℚ))))
               nextGpsId := σ.nextGpsId +
                 ((pointsForActivity s (jsonId a)).map (fun p => p.removeField "id")).length } : Store)
            (jsonId b) = false := by
        intro b hb
        have h1 : activityExists σ (jsonId b) = false := hfresh b (List.mem_cons_of_mem _ hb)
        have h2 : jsonId a ≠ jsonId b := fun he =>
          hxa (he ▸ List.mem_map_of_mem jsonId hb)
        unfold activityExists at h1 ⊢
        simp only [List.any_append, List.any_cons, List.any_nil, h1, Bool.false_or,
          Bool.or_false]
        simp [h2]
      obtain ⟨ihA, ihP⟩ := ih { r with imported := r.imported + 1 } _ hnd hfresh'
      constructor
      · rw [ihA]
        simp
      · intro aid'
        rw [ihP aid']
        have hblock : ∀ p ∈ pointsForActivity s (jsonId a),
            matchesAid p (jsonId a) = true := by
          intro p hp
          have hp' : p ∈ s.gpsPoints.filter (fun q => matchesAid q (jsonId a)) := hp
          exact (List.mem_filter.mp hp').2
        show (pointsForActivity
            ({ activities := _, gpsPoints := _, nextGpsId := _ } : Store) aid').map _ ++ _ = _
        unfold pointsForActivity
        simp only [List.filter_append, List.map_append]
        rw [filter_block _ _ _ _ 0]
        rw [List.filter_cons]
        simp only [List.append_assoc]
        cases hb : (jsonId a == aid')
        · simp only [Bool.false_eq_true, if_false]
          rfl
        · simp only [if_true, List.flatMap_cons]
          have := beq_iff_eq.mp hb
          subst this
          have hstr := strip_stored (pointsForActivity s (jsonId a)) (jsonId a)
            σ.nextGpsId 0 hblock
          unfold pointsForActivity at hstr
          rw [hstr]

/-! ### Geolocation run lemmas -/

theorem runGeo_append (st : GeoState) (evs1 evs2 : List GeoEvent) :
    runGeo st (evs1 ++ evs2) = runGeo (runGeo st evs1) evs2 := by
  simp [runGeo, List.foldl_append]

theorem runGeo_fixes_isPaused (as : List GpsPosition) : ∀ st : GeoState,
    (runGeo st (as.map GeoEvent.fix)).isPaused = st.isPaused := by
  induction as with
  | nil => intro st; rfl
  | cons a as ih =>
      intro st
      show (runGeo (geoHandlePosition false a st) (as.map GeoEvent.fix)).isPaused
        = st.isPaused
      rw [ih]
      rfl

theorem runGeo_fixes_positions (as : List GpsPosition) : ∀ st : GeoState,
    (runGeo st (as.map GeoEvent.fix)).positions = st.positions ++ as := by
  induction as with
  | nil => intro st; simp [runGeo]
  | cons a as ih =>
      intro st
      show (runGeo (geoHandlePosition false a st) (as.map GeoEvent.fix)).positions = _
      rw [ih]
      simp [geoHandlePosition]

/-! ### Elevation loop characterization -/

theorem elevLoop_spec (tl : List ℚ) : ∀ x g l : ℚ,
    elevLoop x tl g l =
      (g + (((x :: tl).zip tl).map (fun ab => max (ab.2 - ab.1) 0)).sum,
       l + (((x :: tl).zip tl).map (fun ab => max (ab.1 - ab.2) 0)).sum) := by
  induction tl with
  | nil => intro x g l; simp [elevLoop]
  | cons e tl ih =>
      intro x g l
      simp only [elevLoop, List.zip_cons_cons, List.map_cons, List.sum_cons]
      by_cases hd : 0 < e - x
      · rw [if_pos hd, ih]
        have h1 : max (e - x) 0 = e - x := max_eq_left (le_of_lt hd)
        have h2 : max (x - e) 0 = 0 := max_eq_right (by linarith)
        rw [h1, h2]
        simp only [Prod.mk.injEq]
        constructor <;> ring
      · rw [if_neg hd, ih]
        have hle : e - x ≤ 0 := le_of_not_lt hd
        have h1 : max (e - x) 0 = 0 := max_eq_right hle
        have h2 : max (x - e) 0 = x - e := max_eq_left (by linarith)
        have h3 : |e - x| = x - e := by
          rw [abs_of_nonpos hle]
          ring
        rw [h1, h2, h3]
        simp only [Prod.mk.injEq]
        constructor <;> ring

/-! ### Maximum lemmas for the save reduction -/

theorem foldl_max_extract (xs : List ℚ) : ∀ x y : ℚ,
    xs.foldl max (max x y) = max x (xs.foldl max y) := by
  induction xs with
  | nil => intro x y; rfl
  | cons z zs ih =>
      intro x y
      simp only [List.foldl_cons]
      rw [max_assoc, ih]

theorem jsMax_eq_maximum (xs : List ℚ) : ∀ x : ℚ,
    (x :: xs).maximum = some (jsMax (x :: xs)) := by
  induction xs with
  | nil =>
      intro x
      simp only [jsMax, List.foldl_nil, List.maximum_singleton]
      rfl
  | cons y ys ih =>
      intro x
      rw [List.maximum_cons, ih y]
      have hjs : jsMax (x :: y :: ys) = max x (jsMax (y :: ys)) := by
        show (y :: ys).foldl max x = _
        show ys.foldl max (max x y) = _
        rw [foldl_max_extract]
        rfl
      rw [hjs]
      exact (WithBot.coe_max x (jsMax (y :: ys))).symm

/-! ### Calories lemmas -/

theorem metFor_pos {K : Type} [LinearOrderedField K] (s : String) :
    (0 : K) < metFor s := by
  unfold metFor
  split_ifs <;> norm_num

theorem jsRound_nonneg {K : Type} [LinearOrderedField K] [FloorRing K]
    (x : K) (h : 0 ≤ x) : 0 ≤ jsRound x := by
  unfold jsRound
  refine Int.le_floor.mpr ?_
  push_cast
  linarith

/-! ## Claim theorems -/

/-- C1 (code bug): the handler that start() registers with the watch
closes over isPaused = false and is never re-registered, so pause()
does not gate appends: stop() after start, fixes as, pause, fixes bs,
resume, fixes cs returns as ++ bs ++ cs, containing every fix delivered
strictly between pause and resume, contradicting the claimed exclusion.
The snapshot half of the claim holds: every incoming fix, also one
delivered while paused, updates the current position.  The last
conjunct evaluates the failing input: a single fix delivered while
paused is returned by stop(). -/
theorem C1_paused_fixes_not_excluded :
    (∀ (st : GeoState) (as bs cs : List GpsPosition),
      (geoStop (runGeo st
        ([GeoEvent.evStart] ++ as.map GeoEvent.fix ++ [GeoEvent.evPause]
          ++ bs.map GeoEvent.fix ++ [GeoEvent.evResume] ++ cs.map GeoEvent.fix))).1
        = as ++ bs ++ cs) ∧
    (∀ (st : GeoState) (evs : List GeoEvent) (p : GpsPosition),
      (runGeo st (evs ++ [GeoEvent.fix p])).currentPosition = some p) ∧
    (geoStop (runGeo geoInit
        [GeoEvent.evStart, GeoEvent.evPause,
         GeoEvent.fix ⟨0, 0, none, none, none, "paused-fix"⟩,
         GeoEvent.evResume])).1
      = [⟨0, 0, none, none, none, "paused-fix"⟩] := by
  refine ⟨?_, ?_, ?_⟩
  · intro st as bs cs
    have hstart : ∀ x : GeoState, runGeo x [GeoEvent.evStart] = geoStart x := fun _ => rfl
    have hpause : ∀ x : GeoState, runGeo x [GeoEvent.evPause] = geoPause x := fun _ => rfl
    have hresume : ∀ x : GeoState, runGeo x [GeoEvent.evResume] = geoResume x := fun _ => rfl
    have hstop : ∀ x : GeoState, (geoStop x).1 = x.positions := fun _ => rfl
    simp only [runGeo_append, hstart, hpause, hresume, hstop]
    simp [runGeo_fixes_positions, geoStart, geoPause, geoResume]
  · intro st evs p
    rw [runGeo_append]
    rfl
  · rfl

/-- C4: a string that is not parseable JSON makes importActivities
return exactly the single error "Invalid JSON format" with
success=false, imported=0, skipped=0 and the store untouched; a failed
structure validation likewise aborts with its single error and no
partial writes. -/
theorem C4_invalid_json_abort (σ : Store) :
    importActivities none σ =
      ({ success := false, imported := 0, skipped := 0,
         errors := ["Invalid JSON format"] }, σ) ∧
    ∀ data : Json, validateImportedData data = false →
      importActivities (some data) σ =
        ({ success := false, imported := 0, skipped := 0,
           errors := ["Invalid data structure. Expected Sports Tracker export format."] }, σ) := by
  refine ⟨rfl, ?_⟩
  intro data h
  simp [importActivities, h]

/-- C4 witness at a concrete non-JSON input and a concrete invalid
document. -/
theorem C4_invalid_json_abort_witness :
    importActivities (some Json.null) emptyStore =
      ({ success := false, imported := 0, skipped := 0,
         errors := ["Invalid data structure. Expected Sports Tracker export format."] },
       emptyStore) :=
  (C4_invalid_json_abort emptyStore).2 Json.null (by decide)

/-- C6: calorie estimation uses the distance heuristic
round(weight x km x factor) for running (factor 1) and walking
(factor 1/2), independently of duration, and the MET formula
round(MET x weight x hours) for every other sport with a default MET
for unrecognized sports; the documented concrete values hold and the
result is nonnegative on nonnegative inputs. -/
theorem C6_calorie_estimate :
    (∀ d t w : ℚ, estimateCaloriesWithDistance "running" d t w
        = jsRound (w * (d / 1000) * 1)) ∧
    (∀ d t w : ℚ, estimateCaloriesWithDistance "walking" d t w
        = jsRound (w * (d / 1000) * (1 / 2))) ∧
    (∀ (s : String) (d t w : ℚ), s ≠ "running" → s ≠ "walking" →
      estimateCaloriesWithDistance s d t w = jsRound (metFor s * w * (t / 3600))) ∧
    estimateCaloriesWithDistance "running" (5000 : ℚ) 1800 70 = 350 ∧
    estimateCaloriesWithDistance "swimming" (0 : ℚ) 3600 70 = 420 ∧
    (∀ (s : String) (d t w : ℚ), 0 ≤ d → 0 ≤ t → 0 ≤ w →
      0 ≤ estimateCaloriesWithDistance s d t w) := by
  refine ⟨?_, ?_, ?_, ?_, ?_, ?_⟩
  · intro d t w
    norm_num [estimateCaloriesWithDistance]
  · intro d t w
    norm_num [estimateCaloriesWithDistance]
    rw [if_neg (by decide)]
  · intro s d t w h1 h2
    simp [estimateCaloriesWithDistance, estimateCalories, h1, h2]
  · norm_num [estimateCaloriesWithDistance, jsRound]
  · norm_num [estimateCaloriesWithDistance, estimateCalories, metFor, jsRound]
    rw [if_neg (by decide), if_neg (by decide), if_neg (by decide), if_neg (by decide)]
    norm_num
  · intro s d t w hd ht hw
    unfold estimateCaloriesWithDistance
    split_ifs with hrw hr
    · exact jsRound_nonneg _
        (mul_nonneg (mul_nonneg hw (div_nonneg hd (by norm_num))) (by norm_num))
    · exact jsRound_nonneg _
        (mul_nonneg (mul_nonneg hw (div_nonneg hd (by norm_num))) (by norm_num))
    · unfold estimateCalories
      exact jsRound_nonneg _
        (mul_nonneg (mul_nonneg (le_of_lt (metFor_pos s)) hw)
          (div_nonneg ht (by norm_num)))

/-- C6 witness: the MET branch at a concrete non-running, non-walking
sport and nonnegativity at concrete nonnegative inputs. -/
theorem C6_calorie_estimate_witness :
    estimateCaloriesWithDistance "cycling" (1000 : ℚ) 3600 70
      = jsRound (metFor "cycling" * 70 * ((3600 : ℚ) / 3600)) ∧
    0 ≤ estimateCaloriesWithDistance "cycling" (1000 : ℚ) 3600 70 :=
  ⟨C6_calorie_estimate.2.2.1 "cycling" 1000 3600 70 (by decide) (by decide),
   C6_calorie_estimate.2.2.2.2.2 "cycling" 1000 3600 70 (by decide) (by decide) (by decide)⟩

/-- C7: elevationDelta drops null readings, then sums positive
consecutive differences of the remaining subsequence as gain and
absolute values of negative ones as loss, returns (0,0) for fewer than
two non-null readings, and yields gain 13, loss 3 on elevations
100, 105, 102, 110. -/
theorem C7_elevation_delta (points : List GpsPosition) :
    calculateElevation points =
      (let els := points.filterMap (fun p => p.elevation_meters)
       if els.length < 2 then (0, 0)
       else (((els.zip els.tail).map (fun ab => max (ab.2 - ab.1) 0)).sum,
             ((els.zip els.tail).map (fun ab => max (ab.1 - ab.2) 0)).sum)) ∧
    calculateElevation
      [⟨0, 0, some 100, none, none, "t1"⟩, ⟨0, 0, some 105, none, none, "t2"⟩,
       ⟨0, 0, some 102, none, none, "t3"⟩, ⟨0, 0, some 110, none, none, "t4"⟩]
      = (13, 3) := by
  constructor
  · simp only [calculateElevation]
    by_cases h : (points.filterMap (fun p => p.elevation_meters)).length < 2
    · rw [if_pos h, if_pos h]
    · rw [if_neg h, if_neg h]
      cases hels : points.filterMap (fun p => p.elevation_meters) with
      | nil =>
          rw [hels] at h
          simp at h
      | cons x tl =>
          show elevLoop x tl 0 0 = _
          rw [elevLoop_spec]
          simp
  · norm_num [calculateElevation, elevLoop, List.filterMap_cons, List.filterMap_nil]

/-- C5: the save reduction sets average speed to distance/seconds when
seconds is positive and null otherwise; maximum speed to the maximum of
the sample speeds with null speeds counted as 0, or null for an empty
sample sequence; and the start and end timestamps to the first and last
sample timestamps, or the current time when no samples were captured. -/
theorem C5_save_reduction (activityId sportType title notes now : String)
    (positions : List GpsPosition) (duration : ℕ) :
    (buildActivity activityId sportType title notes now positions duration).started_at
      = ((positions.head?).map GpsPosition.timestamp).getD now ∧
    (buildActivity activityId sportType title notes now positions duration).ended_at
      = ((positions.getLast?).map GpsPosition.timestamp).getD now ∧
    (buildActivity activityId sportType title notes now positions duration).avg_speed_mps
      = (if 0 < duration
         then some (calculateTotalDistance positions / (duration : ℝ)) else none) ∧
    (buildActivity activityId sportType title notes now positions duration).max_speed_mps
      = (positions.map (fun p => p.speed_mps.getD 0)).maximum := by
  refine ⟨?_, ?_, ?_, ?_⟩
  · cases positions <;> rfl
  · cases h : positions.getLast? <;> simp [buildActivity, h]
  · rfl
  · cases positions with
    | nil => rfl
    | cons p ps =>
        rw [List.map_cons, jsMax_eq_maximum]
        simp [buildActivity]

/-- C8 (amended): the haversine distance is symmetric and vanishes on
identical inputs; the further zero-only-at-equal-inputs part of the
claim fails, see the counterexample. -/
theorem C8_distance_symm_refl :
    (∀ lat1 lon1 lat2 lon2 : ℝ,
      calculateDistance lat1 lon1 lat2 lon2 = calculateDistance lat2 lon2 lat1 lon1) ∧
    (∀ lat lon : ℝ, calculateDistance lat lon lat lon = 0) := by
  constructor
  · intro lat1 lon1 lat2 lon2
    simp only [calculateDistance]
    rw [show (lat1 - lat2) * Real.pi / 180 / 2
        = -((lat2 - lat1) * Real.pi / 180 / 2) by ring,
      show (lon1 - lon2) * Real.pi / 180 / 2
        = -((lon2 - lon1) * Real.pi / 180 / 2) by ring]
    simp only [Real.sin_neg]
    ring_nf
  · intro lat lon
    simp only [calculateDistance]
    rw [show (lat - lat) * Real.pi / 180 / 2 = 0 by ring,
      show (lon - lon) * Real.pi / 180 / 2 = 0 by ring]
    norm_num [atan2, Real.sqrt_one, Real.arctan_zero]

/-- C8 counterexample: the two distinct coordinate pairs (90, 0) and
(90, 180), both at the north pole, have haversine distance 0, so the
distance is not nonzero at every pair of distinct lat/lon inputs. -/
theorem C8_zero_iff_counterexample :
    calculateDistance 90 0 90 180 = 0 ∧
    ((90 : ℝ), (0 : ℝ)) ≠ ((90 : ℝ), (180 : ℝ)) := by
  constructor
  · simp only [calculateDistance]
    rw [show ((90 : ℝ) - 90) * Real.pi / 180 / 2 = 0 by ring,
      show (90 : ℝ) * Real.pi / 180 = Real.pi / 2 by ring]
    norm_num [atan2, Real.cos_pi_div_two, Real.sqrt_one, Real.arctan_zero]
  · intro h
    rw [Prod.mk.injEq] at h
    exact absurd h.2 (by norm_num)

theorem validActivityItem_eq_claim (item : Json) :
    validActivityItem item = claimValidItem item := by
  cases item with
  | obj fs =>
      simp only [validActivityItem, claimValidItem, getField_obj, isObjTy_obj, Bool.true_and]
      cases ha : lookupKey fs "activity" with
      | none => rfl
      | some a => simp [Bool.and_assoc]
  | null => rfl
  | bool b => rfl
  | num q => rfl
  | str s => rfl
  | arr xs => rfl

/-- C9: import fails with the "invalid structure" error exactly when the
parsed document fails the shallow predicate (truthy string version of
any value, activities array, per item a truthy activity object with
truthy string id, sport_type, started_at and a gpsPoints array); no
deeper checks exist, so a version "2.0" bundle whose activity has an
unknown sport string and no numeric fields passes validation and gets
stored, while an empty-string id is rejected as falsy. -/
theorem C9_validation_predicate :
    (∀ data : Json, validateImportedData data = claimValidStructure data) ∧
    (∀ (data : Json) (σ : Store), validateImportedData data = false →
      importActivities (some data) σ =
        ({ success := false, imported := 0, skipped := 0,
           errors := ["Invalid data structure. Expected Sports Tracker export format."] }, σ)) ∧
    (∀ (data : Json) (σ : Store), validateImportedData data = true →
      (importActivities (some data) σ).1.errors = []) ∧
    validateImportedData weirdSportBundle = true ∧
    (importActivities (some weirdSportBundle) emptyStore).1.imported = 1 ∧
    validateImportedData emptyIdBundle = false := by
  refine ⟨?_, ?_, ?_, ?_, ?_, ?_⟩
  · intro data
    have hfun : validActivityItem = claimValidItem := funext validActivityItem_eq_claim
    cases data with
    | obj fs =>
        simp only [validateImportedData, claimValidStructure, getField_obj, isObjTy_obj,
          Bool.true_and, hfun]
    | null => rfl
    | bool b => rfl
    | num q => rfl
    | str s => rfl
    | arr xs => rfl
  · intro data σ h
    simp [importActivities, h]
  · intro data σ h
    rw [importActivities_valid _ _ h]
    exact importFold_errors _ _
  · decide
  · decide
  · decide

/-- C9 witness: the abort equation at a concrete invalid document and
the empty-error-list consequence at a concrete valid document. -/
theorem C9_validation_predicate_witness :
    importActivities (some (Json.num 3)) emptyStore =
      ({ success := false, imported := 0, skipped := 0,
         errors := ["Invalid data structure. Expected Sports Tracker export format."] },
       emptyStore) ∧
    (importActivities (some weirdSportBundle) emptyStore).1.errors = [] :=
  ⟨C9_validation_predicate.2.1 (Json.num 3) emptyStore (by decide),
   C9_validation_predicate.2.2.1 weirdSportBundle emptyStore (by decide)⟩

theorem mem_enumFrom_snd {α : Type} (l : List α) : ∀ (n : ℕ) (x : ℕ × α),
    x ∈ List.enumFrom n l → x.2 ∈ l := by
  induction l with
  | nil => intro n x h; simp [List.enumFrom] at h
  | cons a tl ih =>
      intro n x h
      rcases List.mem_cons.mp h with rfl | h2
      · exact List.mem_cons_self _ _
      · exact List.mem_cons_of_mem _ (ih (n + 1) x h2)

theorem importItem_samplesRef (acc : ImportResult × Store) (item : Json)
    (h : SamplesReference acc.2) : SamplesReference (importItem acc item).2 := by
  by_cases he : activityExists acc.2 (itemAid item) = true
  · rw [importItem_skip _ _ he]
    exact h
  · simp only [importItem]
    rw [if_neg he]
    intro p hp
    rcases List.mem_append.mp hp with hold | hnew
    · obtain ⟨a, ha, hm⟩ := h p hold
      exact ⟨a, List.mem_append_left _ ha, hm⟩
    · refine ⟨itemActivity item, List.mem_append_right _ (List.mem_singleton_self _), ?_⟩
      obtain ⟨ip, hip, rfl⟩ := List.mem_map.mp hnew
      obtain ⟨q, _, hq2⟩ := List.mem_map.mp (mem_enumFrom_snd _ 0 ip hip)
      rw [← hq2, matchesAid_transform]
      exact beq_self_eq_true _

theorem importFold_samplesRef (items : List Json) : ∀ acc : ImportResult × Store,
    SamplesReference acc.2 → SamplesReference (importFold items acc).2 := by
  induction items with
  | nil => intro acc h; exact h
  | cons item items ih =>
      intro acc h
      rw [importFold_cons]
      exact ih _ (importItem_samplesRef acc item h)

/-- C10: every imported GPS point is stored with its activity_id
overwritten by the enclosing activity's id, and importActivities
preserves referential integrity of the sample table: after any import
every stored sample references a stored activity, regardless of the
activity_id values carried in the input file. -/
theorem C10_referential_integrity :
    (∀ (p : Json) (aid : String),
      matchesAid (p.setField "activity_id" (Json.str aid)) aid = true) ∧
    (∀ (parsed : Option Json) (σ : Store),
      SamplesReference σ → SamplesReference (importActivities parsed σ).2) := by
  constructor
  · exact matchesAid_setField_aid
  · intro parsed σ h
    cases parsed with
    | none => exact h
    | some data =>
        by_cases hv : validateImportedData data = true
        · rw [importActivities_valid _ _ hv]
          exact importFold_samplesRef _ _ h
        · simp only [importActivities]
          rw [if_neg hv]
          exact h

/-- C10 witness: importing a bundle whose sample carries a wrong
activity_id into the empty store preserves referential integrity. -/
theorem C10_referential_integrity_witness :
    SamplesReference (importActivities (some strayAidBundle) emptyStore).2 :=
  C10_referential_integrity.2 (some strayAidBundle) emptyStore
    (fun p hp => absurd hp (List.not_mem_nil p))

/-- C3: for a valid bundle, already-present ids are counted as skipped
(not errors, store untouched), every item is either imported or
skipped, success holds exactly when the error list is empty or at least
one activity was imported, and importing the same bundle twice yields
on the second run imported=0, skipped=N (the bundle size) and
success=true. -/
theorem C3_import_skip_and_success (data : Json) (σ : Store)
    (hv : validateImportedData data = true) :
    (importActivities (some data) σ).1.errors = [] ∧
    (importActivities (some data) σ).1.imported + (importActivities (some data) σ).1.skipped
      = (jsonArr (data.getField "activities")).length ∧
    (∀ (parsed : Option Json) (σ' : Store),
      (importActivities parsed σ').1.success = true ↔
        ((importActivities parsed σ').1.errors = [] ∨
          0 < (importActivities parsed σ').1.imported)) ∧
    (∀ (acc : ImportResult × Store) (item : Json),
      activityExists acc.2 (itemAid item) = true →
      importItem acc item = ({ acc.1 with skipped := acc.1.skipped + 1 }, acc.2)) ∧
    (importActivities (some data) ((importActivities (some data) σ).2)).1.imported = 0 ∧
    (importActivities (some data) ((importActivities (some data) σ).2)).1.skipped
      = (jsonArr (data.getField "activities")).length ∧
    (importActivities (some data) ((importActivities (some data) σ).2)).1.success = true := by
  have h1 := importActivities_valid data σ hv
  have hall : ∀ item ∈ jsonArr (data.getField "activities"),
      activityExists (importActivities (some data) σ).2 (itemAid item) = true := by
    rw [h1]
    exact fun item hm => importFold_mem_exists _ _ item hm
  have h2 := importActivities_valid data ((importActivities (some data) σ).2) hv
  have hskip := importFold_skip_all (jsonArr (data.getField "activities"))
    ({ success := false, imported := 0, skipped := 0, errors := [] },
      (importActivities (some data) σ).2) hall
  refine ⟨?_, ?_, ?_, ?_, ?_, ?_, ?_⟩
  · rw [h1]
    exact importFold_errors _ _
  · rw [h1]
    have := importFold_counts (jsonArr (data.getField "activities"))
      ({ success := false, imported := 0, skipped := 0, errors := [] }, σ)
    simpa using this
  · intro parsed σ'
    cases parsed with
    | none => simp [importActivities]
    | some d =>
        by_cases hvd : validateImportedData d = true
        · rw [importActivities_valid _ _ hvd]
          simp [List.isEmpty_iff]
        · simp [importActivities, hvd]
  · intro acc item h
    exact importItem_skip acc item h
  · rw [h2, hskip]
  · rw [h2, hskip]
    simp
  · rw [h2, hskip]
    simp

/-- C3 witness: a concrete valid bundle imported into the empty store
twice reports no errors on the first run and imported=0 on the second. -/
theorem C3_import_skip_and_success_witness :
    (importActivities (some demoBundle) emptyStore).1.errors = [] ∧
    (importActivities (some demoBundle)
        ((importActivities (some demoBundle) emptyStore).2)).1.imported = 0 :=
  ⟨(C3_import_skip_and_success demoBundle emptyStore (by decide)).1,
   (C3_import_skip_and_success demoBundle emptyStore (by decide)).2.2.2.2.1⟩

/-- C2: for every well-formed store state, exporting all activities
and then feeding the resulting bundle to the importer on an empty store
passes validation, reproduces the activity objects identically, and
reproduces every sample of every activity with identical field values
once the store-internal auto key, stripped on export and freshly
assigned on re-entry, is removed. -/
theorem C2_export_import_roundtrip (now : String) (s : Store) (hwf : StoreWF s) :
    validateImportedData (exportAllActivities now s) = true ∧
    (importActivities (some (exportAllActivities now s)) emptyStore).2.activities
      = s.activities ∧
    (∀ a ∈ s.activities,
      (pointsForActivity (importActivities (some (exportAllActivities now s)) emptyStore).2
          (jsonId a)).map (fun p => p.removeField "id")
        = (pointsForActivity s (jsonId a)).map (fun p => p.removeField "id")) := by
  obtain ⟨hact, hnodup, _⟩ := hwf
  have hval := validate_exportAll now s hact
  obtain ⟨hA, hP⟩ := importFold_export s s.activities
    { success := false, imported := 0, skipped := 0, errors := [] } emptyStore hnodup
    (fun a _ => rfl)
  have h1 := importActivities_valid (exportAllActivities now s) emptyStore hval
  refine ⟨hval, ?_, ?_⟩
  · rw [h1]
    simp only [activities_exportAll]
    rw [hA]
    rfl
  · intro a ha
    rw [h1]
    simp only [activities_exportAll]
    rw [hP (jsonId a), filter_id_eq_singleton s.activities a ha hnodup]
    simp [pointsForActivity, emptyStore]

/-- C2 witness at a concrete one-activity, one-sample store. -/
theorem C2_export_import_roundtrip_witness :
    validateImportedData (exportAllActivities "2024-05-02" demoStore) = true ∧
    (importActivities (some (exportAllActivities "2024-05-02" demoStore)) emptyStore).2.activities
      = demoStore.activities :=
  ⟨(C2_export_import_roundtrip "2024-05-02" demoStore
      (by unfold StoreWF SamplesReference; decide)).1,
   (C2_export_import_roundtrip "2024-05-02" demoStore
      (by unfold StoreWF SamplesReference; decide)).2.1⟩
